import Mathlib

/-!
Verification of the MCP-PRIME signature-extraction and schema-synthesis
engine (Go package `repository`), shallowly embedded in Lean 4.

Strings are modelled as Lean `String`s whose operations are implemented by
structural recursion over the underlying `List Char` (Go byte indices are
modelled as character indices; all inputs of interest are ASCII).
The Go regular expressions are embedded via a small backtracking matcher
(`Re`/`mtch`) with RE2's leftmost-first semantics; each Go pattern is
transliterated constructor by constructor.
-/

namespace MCPPrime

/-- Whitespace set used by the model of Go `strings.TrimSpace` (ASCII part of
Unicode White_Space). -/
def isGoSpace (c : Char) : Bool :=
  c = ' ' || c = '\t' || c = '\n' || c = '\x0b' || c = '\x0c' || c = '\r'

/-- Whitespace class of Go `regexp`'s Perl character class: `[\t\n\f\r ]`. -/
def isRegexSpace (c : Char) : Bool :=
  c = '\t' || c = '\n' || c = '\x0c' || c = '\r' || c = ' '

/-- Word-character class of Go `regexp`: `[0-9A-Za-z_]`. -/
def isWordChar (c : Char) : Bool :=
  ('a' ≤ c && c ≤ 'z') || ('A' ≤ c && c ≤ 'Z') || ('0' ≤ c && c ≤ '9') || c = '_'

/-- Character class of `.` in Go `regexp` (no `s` flag): any char but newline. -/
def isDotChar (c : Char) : Bool := c ≠ '\n'

/-- Trim characters satisfying `p` from both ends of a list. -/
def trimListBy (p : Char → Bool) (l : List Char) : List Char :=
  ((l.dropWhile p).reverse.dropWhile p).reverse

/-- Model of Go `strings.TrimSpace`. -/
def trimSpace (s : String) : String :=
  (trimListBy isGoSpace s.data).asString

/-- Model of Go `strings.Trim(s, cutset)`. -/
def trimCutset (cutset : List Char) (s : String) : String :=
  (trimListBy (fun c => cutset.contains c) s.data).asString

/-- Model of Go `strings.HasPrefix(s, pre)`. -/
def hasPrefixStr (s pre : String) : Bool :=
  pre.data.isPrefixOf s.data

/-- Model of Go `strings.HasSuffix(s, suf)`. -/
def hasSuffixStr (s suf : String) : Bool :=
  suf.data.isSuffixOf s.data

/-- Model of Go `strings.Contains(s, string(c))` for a one-character needle. -/
def containsChar (s : String) (c : Char) : Bool :=
  s.data.contains c

/-- First index of character `c`, model of Go `strings.Index(s, string(c))`
(`none` plays the role of Go's `-1`). -/
def idxOfChar : List Char → Char → Option Nat
  | [], _ => none
  | c :: rest, t => if c = t then some 0 else (idxOfChar rest t).map (· + 1)

/-- First index at which `pat` occurs as a prefix; model of Go
`strings.Index(s, pat)` (and `strings.Contains` via `Option.isSome`). -/
def idxOfSub (pat : List Char) : List Char → Option Nat
  | [] => if pat.isEmpty then some 0 else none
  | c :: rest =>
    if pat.isPrefixOf (c :: rest) then some 0
    else (idxOfSub pat rest).map (· + 1)

/-- Model of Go `strings.Split(s, string(sep))` for a one-character separator,
on the underlying character list. -/
def splitOnCharList (sep : Char) : List Char → List (List Char)
  | [] => [[]]
  | c :: rest =>
    match splitOnCharList sep rest with
    | [] => [[]]
    | g :: gs => if c = sep then [] :: g :: gs else (c :: g) :: gs

/-- Model of Go `strings.Split(s, string(sep))`. -/
def splitOnChar (sep : Char) (s : String) : List String :=
  (splitOnCharList sep s.data).map List.asString

/-- Model of Go `strings.Join(l, sep)`. -/
def joinWith (sep : String) : List String → String
  | [] => ""
  | [x] => x
  | x :: y :: rest => x ++ sep ++ joinWith sep (y :: rest)

/-- Model of Go `s[n:]` (character-index model). -/
def dropStr (n : Nat) (s : String) : String :=
  (s.data.drop n).asString

/-- Model of Go `s[:n]` (character-index model). -/
def takeStr (n : Nat) (s : String) : String :=
  (s.data.take n).asString

/-! ### A small regex matcher with RE2 leftmost-first capture semantics

Only the constructs appearing in the five Go patterns of the scanner are
embedded: literals, single-character classes, concatenation, greedy `?`,
greedy `*`/`+` over a character class, lazy `*` over a character class, and
numbered capture groups.  All Go patterns in the source are anchored with
`^`, so only matching at the start of the string is needed; trailing input
after a match is ignored, as with `FindStringSubmatch`. -/

/-- Capture environment: group index paired with the captured characters. -/
abbrev Caps := List (Nat × List Char)

/-- Regex syntax. -/
inductive Re : Type
  /-- literal string -/
  | lit (s : List Char)
  /-- single character of a class -/
  | cls (p : Char → Bool)
  /-- concatenation -/
  | cat (a b : Re)
  /-- greedy `(?:...)?` -/
  | opt (a : Re)
  /-- greedy `x*` over a character class -/
  | starG (p : Char → Bool)
  /-- lazy `x*?` over a character class -/
  | starL (p : Char → Bool)
  /-- numbered capture group -/
  | grp (i : Nat) (a : Re)

/-- Greedy class star: consume as many `p`-characters as possible, backing
off one at a time when the continuation `k` fails. -/
def starGaux (p : Char → Bool) : List Char → (List Char → Caps → Option Caps) → Caps → Option Caps
  | [], k, caps => k [] caps
  | c :: rest, k, caps =>
    if p c then
      match starGaux p rest k caps with
      | some r => some r
      | none => k (c :: rest) caps
    else k (c :: rest) caps

/-- Lazy class star: try the continuation first, consuming a `p`-character
only when it fails. -/
def starLaux (p : Char → Bool) : List Char → (List Char → Caps → Option Caps) → Caps → Option Caps
  | cs, k, caps =>
    match k cs caps with
    | some r => some r
    | none =>
      match cs with
      | [] => none
      | c :: rest => if p c then starLaux p rest k caps else none

/-- Backtracking matcher in continuation-passing style: `mtch r cs k caps`
matches `r` against a prefix of `cs` and passes the remaining input and the
extended capture environment to `k`; alternatives are tried in the
leftmost-first order Go's `regexp` uses for submatches. -/
def mtch : Re → List Char → (List Char → Caps → Option Caps) → Caps → Option Caps
  | .lit s, cs, k, caps => if s.isPrefixOf cs then k (cs.drop s.length) caps else none
  | .cls p, cs, k, caps =>
    match cs with
    | [] => none
    | c :: rest => if p c then k rest caps else none
  | .cat a b, cs, k, caps => mtch a cs (fun cs' caps' => mtch b cs' k caps') caps
  | .opt a, cs, k, caps =>
    match mtch a cs k caps with
    | some r => some r
    | none => k cs caps
  | .starG p, cs, k, caps => starGaux p cs k caps
  | .starL p, cs, k, caps => starLaux p cs k caps
  | .grp i a, cs, k, caps =>
    mtch a cs (fun cs' caps' => k cs' ((i, cs.take (cs.length - cs'.length)) :: caps')) caps

/-- Greedy `x+` over a character class, as in `\s+` and `\w+`. -/
def rplus (p : Char → Bool) : Re := .cat (.cls p) (.starG p)

/-- Model of Go `Regexp.FindStringSubmatch` for a `^`-anchored pattern:
`some` capture environment when the pattern matches a prefix of `s`. -/
def findSubmatch (r : Re) (s : String) : Option Caps :=
  mtch r s.data (fun _ caps => some caps) []

/-- Text of capture group `i` (empty when the group is absent). -/
def capStr (caps : Caps) (i : Nat) : String :=
  match caps.find? (fun p => p.1 == i) with
  | some p => p.2.asString
  | none => ""

/-- Go pattern (Python function header):
  spelled `caret def \s+ (\w+) \s* \( (.*?) \) \s* (?:->.*?)? :` . -/
def pyFunRe : Re :=
  .cat (.lit "def".data)
    (.cat (rplus isRegexSpace)
      (.cat (.grp 1 (rplus isWordChar))
        (.cat (.starG isRegexSpace)
          (.cat (.lit "(".data)
            (.cat (.grp 2 (.starL isDotChar))
              (.cat (.lit ")".data)
                (.cat (.starG isRegexSpace)
                  (.cat (.opt (.cat (.lit "->".data) (.starL isDotChar)))
                    (.lit ":".data)))))))))

/-- Go pattern (Python class header):
  spelled `caret class \s+ (\w+) (?:\(.*?\))? :` . -/
def pyClassRe : Re :=
  .cat (.lit "class".data)
    (.cat (rplus isRegexSpace)
      (.cat (.grp 1 (rplus isWordChar))
        (.cat (.opt (.cat (.lit "(".data) (.cat (.starL isDotChar) (.lit ")".data))))
          (.lit ":".data))))

/-- Go pattern (JS/TS function declaration):
  spelled `caret (?:export\s+)? (?:async\s+)? function \s+ (\w+) \s* \( (.*?) \) (?:\s*:\s*.*?)?` . -/
def jsFunRe : Re :=
  .cat (.opt (.cat (.lit "export".data) (rplus isRegexSpace)))
    (.cat (.opt (.cat (.lit "async".data) (rplus isRegexSpace)))
      (.cat (.lit "function".data)
        (.cat (rplus isRegexSpace)
          (.cat (.grp 1 (rplus isWordChar))
            (.cat (.starG isRegexSpace)
              (.cat (.lit "(".data)
                (.cat (.grp 2 (.starL isDotChar))
                  (.cat (.lit ")".data)
                    (.opt (.cat (.starG isRegexSpace)
                      (.cat (.lit ":".data)
                        (.cat (.starG isRegexSpace) (.starL isDotChar)))))))))))))

/-- Go pattern (JS/TS arrow-function assignment):
  spelled `caret (?:export\s+)? const \s+ (\w+) \s* = \s* (?:async\s+)? \( (.*?) \) (?:\s*:\s*.*?)? \s* =>` . -/
def jsArrowRe : Re :=
  .cat (.opt (.cat (.lit "export".data) (rplus isRegexSpace)))
    (.cat (.lit "const".data)
      (.cat (rplus isRegexSpace)
        (.cat (.grp 1 (rplus isWordChar))
          (.cat (.starG isRegexSpace)
            (.cat (.lit "=".data)
              (.cat (.starG isRegexSpace)
                (.cat (.opt (.cat (.lit "async".data) (rplus isRegexSpace)))
                  (.cat (.lit "(".data)
                    (.cat (.grp 2 (.starL isDotChar))
                      (.cat (.lit ")".data)
                        (.cat (.opt (.cat (.starG isRegexSpace)
                                (.cat (.lit ":".data)
                                  (.cat (.starG isRegexSpace) (.starL isDotChar)))))
                          (.cat (.starG isRegexSpace) (.lit "=>".data)))))))))))))

/-- Go pattern (JS/TS class header):
  spelled `caret (?:export\s+)? (?:abstract\s+)? class \s+ (\w+) (?:\s+extends\s+\w+)? (?:\s+implements\s+.*?)?` . -/
def jsClassRe : Re :=
  .cat (.opt (.cat (.lit "export".data) (rplus isRegexSpace)))
    (.cat (.opt (.cat (.lit "abstract".data) (rplus isRegexSpace)))
      (.cat (.lit "class".data)
        (.cat (rplus isRegexSpace)
          (.cat (.grp 1 (rplus isWordChar))
            (.cat (.opt (.cat (rplus isRegexSpace)
                    (.cat (.lit "extends".data)
                      (.cat (rplus isRegexSpace) (rplus isWordChar)))))
              (.opt (.cat (rplus isRegexSpace)
                (.cat (.lit "implements".data)
                  (.cat (rplus isRegexSpace) (.starL isDotChar))))))))))

/-- Model of `funcMatch` in `extractPythonSignatures`: captured (name, params). -/
def pyFunMatch (line : String) : Option (String × String) :=
  (findSubmatch pyFunRe line).map (fun caps => (capStr caps 1, capStr caps 2))

/-- Model of `classMatch` in `extractPythonSignatures`: captured name. -/
def pyClassMatch (line : String) : Option String :=
  (findSubmatch pyClassRe line).map (fun caps => capStr caps 1)

/-- Model of `funcMatch` in `extractJavaScriptSignatures`: captured (name, params). -/
def jsFunMatch (line : String) : Option (String × String) :=
  (findSubmatch jsFunRe line).map (fun caps => (capStr caps 1, capStr caps 2))

/-- Model of `arrowMatch` in `extractJavaScriptSignatures`: captured (name, params). -/
def jsArrowMatch (line : String) : Option (String × String) :=
  (findSubmatch jsArrowRe line).map (fun caps => (capStr caps 1, capStr caps 2))

/-- Model of `classMatch` in `extractJavaScriptSignatures`: captured name. -/
def jsClassMatch (line : String) : Option String :=
  (findSubmatch jsClassRe line).map (fun caps => capStr caps 1)

/-! ### Data model (`types.go`) -/

/-- Value of one `properties` entry produced by the parameter normalizers:
`{"type": "string", "description": "Parameter <name>"}`. -/
structure PropStub where
  type_ : String
  description : String
  deriving DecidableEq, Repr

/-- Shape of the `parameters` object the normalizers build:
`{"type": ..., "properties": ...}`.  Go's `map[string]interface{}` is
modelled by this fixed shape (the only one the system produces); the
`properties` map is an insertion-ordered association list with Go-map
overwrite semantics. -/
structure ParamSchema where
  type_ : String
  properties : List (String × PropStub)
  deriving DecidableEq, Repr

/-- Go `FunctionSignature` (a function or class extracted from source code).
The Go field `Type` is spelled `type_`; a class's nil `Parameters` map is
`none`, its nil `Required` slice is `[]`. -/
structure FunctionSignature where
  name : String
  type_ : String
  signature : String
  description : String
  parameters : Option ParamSchema
  required : List String
  deriving DecidableEq, Repr

/-- Go `FunctionDescriptor` (assembler input). -/
structure FunctionDescriptor where
  name : String
  description : String
  parameters : ParamSchema
  required : List String
  deriving DecidableEq, Repr

/-- Go `FunctionDef` (the `function` part of a tool definition). -/
structure FunctionDef where
  name : String
  description : String
  parameters : ParamSchema
  deriving DecidableEq, Repr

/-- Go `ToolDefinition` (OpenAI-compatible tool definition). -/
structure ToolDefinition where
  type_ : String
  function : FunctionDef
  deriving DecidableEq, Repr

/-! ### Documentation extractors -/

/-- Loop of `extractPythonDocstring` over the lines after the opening quote
(Go `for i := startLine + 1; ...` with its `break`s). -/
def pyDocLoop (quote : String) : List String → List String
  | [] => []
  | l :: rest =>
    match idxOfSub quote.data l.data with
    | some endIdx => if endIdx > 0 then [takeStr endIdx l] else []
    | none => l :: pyDocLoop quote rest

/-- Go `extractPythonDocstring`: docstring starting at line `startLine`. -/
def extractPythonDocstring (lines : List String) (startLine : Nat) : String :=
  if startLine ≥ lines.length then ""
  else
    let line := trimSpace (lines.getD startLine "")
    if hasPrefixStr line "\"\"\"" || hasPrefixStr line (String.mk ['\'', '\'', '\'']) then
      let quote := takeStr 3 line
      if line.data.length > 6 && hasSuffixStr line quote then
        trimCutset [' ', '\t'] (takeStr (line.data.length - 6) (dropStr 3 line))
      else
        let headLines := if line.data.length > 3 then [dropStr 3 line] else []
        let docLines := headLines ++ pyDocLoop quote (lines.drop (startLine + 1))
        trimSpace (joinWith "\n" docLines)
    else ""

/-- Backward scan of Go `extractJSDocComment`, over the lines above the
header listed nearest-first (`lines[lineNum-1], lines[lineNum-2], ...`).
Returns the collected comment lines oldest-first, as the Go loop does by
prepending while iterating `i` from `lineNum - 1` down to `0`. -/
def scanBack : List String → List String
  | [] => []
  | l :: rest =>
    let t := trimSpace l
    if t = "" then scanBack rest
    else if hasPrefixStr t "*/" then scanBack rest
    else if hasPrefixStr t "*" then
      let content := trimSpace (dropStr 1 t)
      if content ≠ "" then scanBack rest ++ [content] else scanBack rest
    else if hasPrefixStr t "/**" then
      let content := trimSpace (dropStr 3 t)
      if content ≠ "" && !hasSuffixStr content "*/" then [content] else []
    else []

/-- Go `extractJSDocComment`: JSDoc comment before line `lineNum`. -/
def extractJSDocComment (lines : List String) (lineNum : Nat) : String :=
  joinWith " " (scanBack ((lines.take lineNum).reverse))

/-! ### Parameter normalizers -/

/-- Go-map assignment `properties[k] = v`: overwrite when the key exists,
append otherwise. -/
def insertProp (l : List (String × PropStub)) (k : String) (v : PropStub) :
    List (String × PropStub) :=
  if l.any (fun p => p.1 = k) then l.map (fun p => if p.1 = k then (k, v) else p)
  else l ++ [(k, v)]

/-- Loop body of `parsePythonParameters` over one comma-split token, acting
on the accumulated `(properties, required)` state. -/
def pyParamStep (st : List (String × PropStub) × List String) (tok : String) :
    List (String × PropStub) × List String :=
  let param := trimSpace tok
  if param = "" ∨ param = "self" then st
  else if hasPrefixStr param "*" then st
  else
    let paramName :=
      match idxOfChar param.data ':' with
      | some idx => trimSpace (takeStr idx param)
      | none => param
    let hasDefault := containsChar param '='
    let required := if !hasDefault then st.2 ++ [paramName] else st.2
    let properties :=
      if paramName ≠ "" then
        insertProp st.1 paramName ⟨"string", "Parameter " ++ paramName⟩
      else st.1
    (properties, required)

/-- Fold of `pyParamStep` over the comma-split token list. -/
def pyFromTokens (toks : List String) : List (String × PropStub) × List String :=
  toks.foldl pyParamStep ([], [])

/-- Go `parsePythonParameters`. -/
def parsePythonParameters (params : String) : ParamSchema × List String :=
  if params = "" then (⟨"object", []⟩, [])
  else
    let st := pyFromTokens (splitOnChar ',' params)
    (⟨"object", st.1⟩, st.2)

/-- Loop body of `parseJavaScriptParameters` over one comma-split token. -/
def jsParamStep (st : List (String × PropStub) × List String) (tok : String) :
    List (String × PropStub) × List String :=
  let param := trimSpace tok
  if param = "" then st
  else if hasPrefixStr param "..." then st
  else
    let paramName0 :=
      match idxOfChar param.data ':' with
      | some idx => trimSpace (takeStr idx param)
      | none => param
    let isOptional := hasSuffixStr paramName0 "?"
    let paramName :=
      if isOptional then takeStr (paramName0.data.length - 1) paramName0 else paramName0
    let hasDefault := containsChar param '='
    let required := if !isOptional && !hasDefault then st.2 ++ [paramName] else st.2
    let properties :=
      if paramName ≠ "" then
        insertProp st.1 paramName ⟨"string", "Parameter " ++ paramName⟩
      else st.1
    (properties, required)

/-- Fold of `jsParamStep` over the comma-split token list. -/
def jsFromTokens (toks : List String) : List (String × PropStub) × List String :=
  toks.foldl jsParamStep ([], [])

/-- Go `parseJavaScriptParameters`. -/
def parseJavaScriptParameters (params : String) : ParamSchema × List String :=
  if params = "" then (⟨"object", []⟩, [])
  else
    let st := jsFromTokens (splitOnChar ',' params)
    (⟨"object", st.1⟩, st.2)

/-! ### Declaration scanners -/

/-- Class-pattern block of the Python scanner's loop body (reached unless an
earlier match hit `continue`). -/
def pyScanClass (lines : List String) (i : Nat) (line : String) :
    List FunctionSignature :=
  match pyClassMatch line with
  | some name =>
    if hasPrefixStr name "_" then []
    else
      [{ name := name, type_ := "class", signature := line,
         description := extractPythonDocstring lines (i + 1),
         parameters := none, required := [] }]
  | none => []

/-- One iteration of the Python scanner's loop on the trimmed `line` at index
`i`: the function block first; a private function match `continue`s past the
class block, a public one appends and falls through to it. -/
def pyScanLine (lines : List String) (i : Nat) (line : String) :
    List FunctionSignature :=
  match pyFunMatch line with
  | some (name, params) =>
    if hasPrefixStr name "_" then []
    else
      let pr := parsePythonParameters params
      { name := name, type_ := "function", signature := line,
        description := extractPythonDocstring lines (i + 1),
        parameters := some pr.1, required := pr.2 } :: pyScanClass lines i line
  | none => pyScanClass lines i line

/-- Go `extractPythonSignatures`. -/
def extractPythonSignatures (code : String) : List FunctionSignature :=
  let lines := splitOnChar '\n' code
  (lines.enum.map (fun p => pyScanLine lines p.1 (trimSpace p.2))).flatten

/-- Class-pattern block of the JS/TS scanner's loop body. -/
def jsScanClass (lines : List String) (i : Nat) (line : String) :
    List FunctionSignature :=
  match jsClassMatch line with
  | some name =>
    if hasPrefixStr name "_" then []
    else
      [{ name := name, type_ := "class", signature := line,
         description := extractJSDocComment lines i,
         parameters := none, required := [] }]
  | none => []

/-- Arrow-pattern block of the JS/TS scanner's loop body, falling through to
the class block (a private arrow match `continue`s past it). -/
def jsScanArrow (lines : List String) (i : Nat) (line : String) :
    List FunctionSignature :=
  match jsArrowMatch line with
  | some (name, params) =>
    if hasPrefixStr name "_" then []
    else
      let pr := parseJavaScriptParameters params
      { name := name, type_ := "function", signature := line,
        description := extractJSDocComment lines i,
        parameters := some pr.1, required := pr.2 } :: jsScanClass lines i line
  | none => jsScanClass lines i line

/-- One iteration of the JS/TS scanner's loop on the trimmed `line` at index
`i`: function, then arrow, then class block, with `continue` on a private
match skipping the later blocks. -/
def jsScanLine (lines : List String) (i : Nat) (line : String) :
    List FunctionSignature :=
  match jsFunMatch line with
  | some (name, params) =>
    if hasPrefixStr name "_" then []
    else
      let pr := parseJavaScriptParameters params
      { name := name, type_ := "function", signature := line,
        description := extractJSDocComment lines i,
        parameters := some pr.1, required := pr.2 } :: jsScanArrow lines i line
  | none => jsScanArrow lines i line

/-- Go `extractJavaScriptSignatures`. -/
def extractJavaScriptSignatures (code : String) : List FunctionSignature :=
  let lines := splitOnChar '\n' code
  (lines.enum.map (fun p => jsScanLine lines p.1 (trimSpace p.2))).flatten

/-! ### Extraction facade (`handleExtractSignatures`)

The MCP parameter-binding layer (`RequiredParam`) is the transport, outside
the core; the facade below models the handler body from the `switch` on,
taking the two bound string arguments.  The Go scanners always return a nil
error, so the `err != nil` branch after the switch is dead and the result is
`Except String (List FunctionSignature)` with the switch's default arm as
the only error. -/

/-- Dispatch of `handleExtractSignatures` on the `language` argument. -/
def handleExtractSignatures (code language : String) :
    Except String (List FunctionSignature) :=
  match language with
  | "python" => .ok (extractPythonSignatures code)
  | "javascript" => .ok (extractJavaScriptSignatures code)
  | "typescript" => .ok (extractJavaScriptSignatures code)
  | _ => .error ("unsupported language: " ++ language)

/-! ### Tool-schema assembler (`handleEmitToolJSON`) -/

/-- One element of the `functions` array as it arrives in JSON, before
`json.Unmarshal` into `FunctionDescriptor`: each field may be absent.
Go's `map[string]interface{}` parameter object is modelled by the
`ParamSchema` shape (the spec's FunctionDescriptor `parameters` has the
same shape as `parameterSchema`). -/
structure RawDescriptor where
  name? : Option String
  description? : Option String
  parameters? : Option ParamSchema
  required? : Option (List String)
  deriving DecidableEq, Repr

/-- Go `json.Unmarshal` field semantics for `FunctionDescriptor`: a field
absent from the JSON object keeps the Go zero value (empty string, nil map
modelled as the empty schema, nil slice). -/
def decodeDescriptor (r : RawDescriptor) : FunctionDescriptor :=
  { name := r.name?.getD ""
    description := r.description?.getD ""
    parameters := r.parameters?.getD ⟨"", []⟩
    required := r.required?.getD [] }

/-- Loop body of `handleEmitToolJSON`: `tools[i] = ToolDefinition{...}`. -/
def toToolDef (fn : FunctionDescriptor) : ToolDefinition :=
  { type_ := "function"
    function :=
      { name := fn.name
        description := fn.description
        parameters := fn.parameters } }

/-- Core of `handleEmitToolJSON` after unmarshalling (the spec's
`synthesizeToolSchemas`): empty-input check, then the per-element loop. -/
def synthesizeToolSchemas (functions : List FunctionDescriptor) :
    Except String (List ToolDefinition) :=
  if functions.length = 0 then .error "functions parameter cannot be empty"
  else .ok (functions.map toToolDef)

/-- Go `handleEmitToolJSON` on the unmarshalled `functions` array. -/
def handleEmitToolJSON (raw : List RawDescriptor) :
    Except String (List ToolDefinition) :=
  synthesizeToolSchemas (raw.map decodeDescriptor)

/-! ### File-content collaborator (`handleGetFileContent`)

Paths are modelled as strings with `/` separators; `filepath.Clean`,
`filepath.Join` and `filepath.Abs` are embedded lexically as in Go
(`os.Getwd` always yields an absolute path, so `Abs` reduces to `Clean`
for every path the handler builds). -/

/-- Component processing of Go `path/filepath.Clean`: drop empty and `.`
components; `..` pops the previous component, is kept at the start of a
relative path, and is dropped at the root of an absolute one. -/
def cleanComponents (rooted : Bool) (comps : List String) : List String :=
  comps.foldl
    (fun out c =>
      if c = "" || c = "." then out
      else if c = ".." then
        if out ≠ [] && out.getLast? ≠ some ".." then out.dropLast
        else if rooted then out
        else out ++ [".."]
      else out ++ [c])
    []

/-- Model of Go `filepath.Clean`. -/
def filepathClean (p : String) : String :=
  let rooted := hasPrefixStr p "/"
  let out := cleanComponents rooted (splitOnChar '/' p)
  let body := joinWith "/" out
  if rooted then "/" ++ body
  else if body = "" then "." else body

/-- Model of Go `filepath.Join(a, b)`: join non-empty elements with the
separator, then `Clean`. -/
def filepathJoin (a b : String) : String :=
  if a ≠ "" then filepathClean (a ++ "/" ++ b)
  else if b ≠ "" then filepathClean b
  else ""

/-- Model of Go `filepath.Abs` with working directory `wd`: an absolute
path is cleaned, a relative one joined onto `wd`. -/
def filepathAbs (wd p : String) : String :=
  if hasPrefixStr p "/" then filepathClean p else filepathJoin wd p

/-- Go `handleGetFileContent`, with the filesystem abstracted as a partial
map `fsys` from absolute path to file content (`none` makes `os.ReadFile`
fail) and `repoRoot` standing for the `os.Getwd` result. -/
def handleGetFileContent (fsys : String → Option String) (repoRoot path : String) :
    Except String String :=
  let fullPath := filepathJoin repoRoot path
  let cleanPath := filepathAbs repoRoot fullPath
  let cleanRepoRoot := filepathAbs repoRoot repoRoot
  if !hasPrefixStr cleanPath cleanRepoRoot then
    .error "path is outside repository bounds"
  else
    match fsys cleanPath with
    | some content => .ok content
    | none => .error "failed to read file"

/-- Containment property the specification requires of the collaborator
(`readFile` "fails if the resolved path escapes rootPath"): the resolved
path is the root itself or lies strictly under it. -/
def pathWithinRoot (root p : String) : Prop :=
  p = root ∨ hasPrefixStr p (root ++ "/") = true

instance (root p : String) : Decidable (pathWithinRoot root p) := by
  unfold pathWithinRoot; infer_instance

/-! ## Claims -/

/-- C8: `synthesizeToolSchemas` applied to the empty descriptor array fails
with the empty-input error and produces no `ToolDefinition` array; the same
holds for the full handler on an empty unmarshalled `functions` array. -/
theorem c8_emptyInputFails :
    synthesizeToolSchemas [] = .error "functions parameter cannot be empty" ∧
    handleEmitToolJSON [] = .error "functions parameter cannot be empty" :=
  ⟨rfl, rfl⟩

/-- C4: for every code string and every language value other than
`python`, `javascript` and `typescript`, the extraction facade fails with
an error naming the offending language value, and no signature sequence is
produced. -/
theorem c4_unsupportedLanguage (code language : String)
    (h1 : language ≠ "python") (h2 : language ≠ "javascript")
    (h3 : language ≠ "typescript") :
    handleExtractSignatures code language =
      .error ("unsupported language: " ++ language) := by
  unfold handleExtractSignatures
  split <;> simp_all

/-- Witness for C4 at `code = "x"`, `language = "ruby"`. -/
theorem c4_unsupportedLanguage_witness :
    handleExtractSignatures "x" "ruby" = .error "unsupported language: ruby" := by
  have h : ("unsupported language: " ++ "ruby" : String) = "unsupported language: ruby" := by
    decide
  rw [c4_unsupportedLanguage "x" "ruby" (by decide) (by decide) (by decide), h]

/-- Counterexample to C2 as stated: a `functions` array whose only element
lacks a `name` field is not rejected — `handleEmitToolJSON` succeeds and
emits a tool definition (with an empty function name), rather than failing
with a shape error. -/
theorem c2_counterexample :
    handleEmitToolJSON
        [{ name? := none, description? := some "d",
           parameters? := some ⟨"object", []⟩, required? := some [] }] =
      .ok [{ type_ := "function",
             function := { name := "", description := "d",
                           parameters := ⟨"object", []⟩ } }] ∧
    (handleEmitToolJSON
        [{ name? := none, description? := some "d",
           parameters? := some ⟨"object", []⟩, required? := some [] }]).isOk = true :=
  ⟨rfl, rfl⟩

/-- C2 (amended): a descriptor element lacking `name` is not rejected and
aborts nothing — unmarshalling fills the missing field with the empty
string, the whole assembly succeeds, and the offending element yields a
`ToolDefinition` whose `function.name` is empty. -/
theorem c2_missingNameAccepted (raw : List RawDescriptor) (i : Nat)
    (d : RawDescriptor) (hget : raw[i]? = some d) (hname : d.name? = none) :
    handleEmitToolJSON raw = .ok ((raw.map decodeDescriptor).map toToolDef) ∧
    ((raw.map decodeDescriptor).map toToolDef)[i]?.map
        (fun t => t.function.name) = some "" := by
  have hne : raw.length ≠ 0 := by
    intro h0
    rw [List.length_eq_zero] at h0
    subst h0
    simp at hget
  constructor
  · simp [handleEmitToolJSON, synthesizeToolSchemas, hne]
  · simp [List.getElem?_map, hget, toToolDef, decodeDescriptor, hname]

/-- Witness for C2 (amended) at a one-element array whose descriptor has
no `name` field. -/
theorem c2_missingNameAccepted_witness :
    handleEmitToolJSON
        [{ name? := none, description? := some "d2",
           parameters? := some ⟨"object", []⟩, required? := some [] }] =
      .ok (([({ name? := none, description? := some "d2",
                parameters? := some ⟨"object", []⟩,
                required? := some [] } : RawDescriptor)].map
              decodeDescriptor).map toToolDef) ∧
    (([({ name? := none, description? := some "d2",
          parameters? := some ⟨"object", []⟩,
          required? := some [] } : RawDescriptor)].map
            decodeDescriptor).map toToolDef)[0]?.map
        (fun t => t.function.name) = some "" :=
  c2_missingNameAccepted _ 0 _ rfl rfl

/-- C3: for every non-empty descriptor list, `synthesizeToolSchemas`
returns an equal-length list in which the n-th output is exactly the
`{type: "function", function: {name, description, parameters}}` envelope
of the n-th input, and the descriptor's `required` list has no influence
on the output. -/
theorem c3_envelopeAndOrder (fns : List FunctionDescriptor) (h : fns ≠ []) :
    synthesizeToolSchemas fns = .ok (fns.map toToolDef) ∧
    (fns.map toToolDef).length = fns.length ∧
    (∀ (i : Nat) (fn : FunctionDescriptor), fns[i]? = some fn →
      (fns.map toToolDef)[i]? =
        some ({ type_ := "function",
                function := { name := fn.name, description := fn.description,
                              parameters := fn.parameters } } : ToolDefinition)) ∧
    (∀ fn r, toToolDef { fn with required := r } = toToolDef fn) := by
  refine ⟨?_, by simp, ?_, fun fn r => rfl⟩
  · simp [synthesizeToolSchemas, h]
  · intro i fn hget
    simp [List.getElem?_map, hget, toToolDef]

/-- Witness for C3 at a one-element descriptor list. -/
theorem c3_envelopeAndOrder_witness :
    synthesizeToolSchemas
        [({ name := "f", description := "d",
            parameters := ⟨"object", []⟩, required := ["x"] } : FunctionDescriptor)] =
      .ok [{ type_ := "function",
             function := { name := "f", description := "d",
                           parameters := ⟨"object", []⟩ } }] := by
  rw [(c3_envelopeAndOrder
        [({ name := "f", description := "d",
            parameters := ⟨"object", []⟩, required := ["x"] } : FunctionDescriptor)]
        (by decide)).1]
  rfl

/-- Python token retained by the normalizer: not blank, not `self`, not a
`*`-variadic marker. -/
def pyRetained (t : String) : Prop :=
  t ≠ "" ∧ t ≠ "self" ∧ hasPrefixStr t "*" = false

/-- JS/TS token retained by the normalizer: not blank, not a `...` rest
marker. -/
def jsRetained (t : String) : Prop :=
  t ≠ "" ∧ hasPrefixStr t "..." = false

instance (t : String) : Decidable (pyRetained t) := by
  unfold pyRetained; infer_instance

instance (t : String) : Decidable (jsRetained t) := by
  unfold jsRetained; infer_instance

lemma pyParamStep_snd_of_default {st : List (String × PropStub) × List String}
    {tok : String}
    (h : pyRetained (trimSpace tok) → containsChar (trimSpace tok) '=' = true) :
    (pyParamStep st tok).2 = st.2 := by
  by_cases h1 : trimSpace tok = "" ∨ trimSpace tok = "self"
  · simp [pyParamStep, h1]
  · by_cases h2 : hasPrefixStr (trimSpace tok) "*" = true
    · simp [pyParamStep, h1, h2]
    · have h2f : hasPrefixStr (trimSpace tok) "*" = false :=
        Bool.eq_false_iff.mpr h2
      push_neg at h1
      have hc := h ⟨h1.1, h1.2, h2f⟩
      simp [pyParamStep, h1.1, h1.2, h2f, hc]

lemma pyFold_snd_of_default (toks : List String) :
    ∀ st : List (String × PropStub) × List String,
      (∀ tok ∈ toks,
        pyRetained (trimSpace tok) → containsChar (trimSpace tok) '=' = true) →
      (toks.foldl pyParamStep st).2 = st.2 := by
  induction toks with
  | nil => intro st _; rfl
  | cons t ts ih =>
    intro st h
    rw [List.foldl_cons,
      ih _ (fun tok ht => h tok (List.mem_cons_of_mem _ ht))]
    exact pyParamStep_snd_of_default (h t (List.mem_cons_self _ _))

lemma jsParamStep_snd_of_default {st : List (String × PropStub) × List String}
    {tok : String}
    (h : jsRetained (trimSpace tok) → containsChar (trimSpace tok) '=' = true) :
    (jsParamStep st tok).2 = st.2 := by
  by_cases h1 : trimSpace tok = ""
  · simp [jsParamStep, h1]
  · by_cases h2 : hasPrefixStr (trimSpace tok) "..." = true
    · simp [jsParamStep, h1, h2]
    · have h2f : hasPrefixStr (trimSpace tok) "..." = false :=
        Bool.eq_false_iff.mpr h2
      have hc := h ⟨h1, h2f⟩
      simp [jsParamStep, h1, h2f, hc]

lemma jsFold_snd_of_default (toks : List String) :
    ∀ st : List (String × PropStub) × List String,
      (∀ tok ∈ toks,
        jsRetained (trimSpace tok) → containsChar (trimSpace tok) '=' = true) →
      (toks.foldl jsParamStep st).2 = st.2 := by
  induction toks with
  | nil => intro st _; rfl
  | cons t ts ih =>
    intro st h
    rw [List.foldl_cons,
      ih _ (fun tok ht => h tok (List.mem_cons_of_mem _ ht))]
    exact jsParamStep_snd_of_default (h t (List.mem_cons_self _ _))

/-- C5: in both parameter normalizers, if every retained token of the raw
parameter-list string contains a default value (`=`), the returned
required-parameters list is empty. -/
theorem c5_allDefaultsRequiredEmpty (params : String) :
    ((∀ tok ∈ splitOnChar ',' params,
        pyRetained (trimSpace tok) → containsChar (trimSpace tok) '=' = true) →
      (parsePythonParameters params).2 = []) ∧
    ((∀ tok ∈ splitOnChar ',' params,
        jsRetained (trimSpace tok) → containsChar (trimSpace tok) '=' = true) →
      (parseJavaScriptParameters params).2 = []) := by
  constructor
  · intro h
    unfold parsePythonParameters
    by_cases h0 : params = ""
    · simp [h0]
    · rw [if_neg h0]
      exact pyFold_snd_of_default _ _ h
  · intro h
    unfold parseJavaScriptParameters
    by_cases h0 : params = ""
    · simp [h0]
    · rw [if_neg h0]
      exact jsFold_snd_of_default _ _ h

/-- Witness for C5 on parameter lists whose parameters all carry defaults. -/
theorem c5_allDefaultsRequiredEmpty_witness :
    (parsePythonParameters "a=1, b: int = 2").2 = [] ∧
    (parseJavaScriptParameters "a = 1, b: number = 2").2 = [] :=
  ⟨(c5_allDefaultsRequiredEmpty "a=1, b: int = 2").1 (by decide),
   (c5_allDefaultsRequiredEmpty "a = 1, b: number = 2").2 (by decide)⟩

lemma pyParamStep_variadic {st : List (String × PropStub) × List String}
    {v : String} (h : hasPrefixStr (trimSpace v) "*" = true) :
    pyParamStep st v = st := by
  have hv1 : trimSpace v ≠ "" := by
    intro h0; rw [h0] at h; exact absurd h (by decide)
  have hv2 : trimSpace v ≠ "self" := by
    intro h0; rw [h0] at h; exact absurd h (by decide)
  simp [pyParamStep, hv1, hv2, h]

lemma jsParamStep_variadic {st : List (String × PropStub) × List String}
    {v : String} (h : hasPrefixStr (trimSpace v) "..." = true) :
    jsParamStep st v = st := by
  have h1 : trimSpace v ≠ "" := by
    intro h1; rw [h1] at h; exact absurd h (by decide)
  simp [jsParamStep, h1, h]

/-- C6: a variadic token (`*`-prefixed in Python, `...`-prefixed in JS/TS)
contributes nothing to the normalizer's output: the result over the full
comma-split token list equals the result over the list with that token
removed, so the variadic parameter adds no `properties` key and no
required entry. -/
theorem c6_variadicContributesNothing (params : String)
    (l1 l2 : List String) (v : String) :
    (splitOnChar ',' params = l1 ++ v :: l2 →
      hasPrefixStr (trimSpace v) "*" = true →
      parsePythonParameters params =
        (⟨"object", (pyFromTokens (l1 ++ l2)).1⟩, (pyFromTokens (l1 ++ l2)).2)) ∧
    (splitOnChar ',' params = l1 ++ v :: l2 →
      hasPrefixStr (trimSpace v) "..." = true →
      parseJavaScriptParameters params =
        (⟨"object", (jsFromTokens (l1 ++ l2)).1⟩, (jsFromTokens (l1 ++ l2)).2)) := by
  constructor
  · intro hsplit hv
    have hvne : v ≠ "" := by
      intro h0; rw [h0] at hv; exact absurd hv (by decide)
    have hne : params ≠ "" := by
      intro h0
      have hmem : v ∈ splitOnChar ',' params := by
        rw [hsplit]; exact List.mem_append_right _ (List.mem_cons_self _ _)
      rw [h0] at hmem
      have hempty : splitOnChar ',' "" = [""] := by decide
      rw [hempty] at hmem
      simp at hmem
      exact hvne hmem
    unfold parsePythonParameters pyFromTokens
    rw [if_neg hne, hsplit, List.foldl_append, List.foldl_cons,
      pyParamStep_variadic hv, ← List.foldl_append]
  · intro hsplit hv
    have hvne : v ≠ "" := by
      intro h0; rw [h0] at hv; exact absurd hv (by decide)
    have hne : params ≠ "" := by
      intro h0
      have hmem : v ∈ splitOnChar ',' params := by
        rw [hsplit]; exact List.mem_append_right _ (List.mem_cons_self _ _)
      rw [h0] at hmem
      have hempty : splitOnChar ',' "" = [""] := by decide
      rw [hempty] at hmem
      simp at hmem
      exact hvne hmem
    unfold parseJavaScriptParameters jsFromTokens
    rw [if_neg hne, hsplit, List.foldl_append, List.foldl_cons,
      jsParamStep_variadic hv, ← List.foldl_append]

/-- Witness for C6 at `*args` / `**kwargs` / `...rest` parameter lists. -/
theorem c6_variadicContributesNothing_witness :
    parsePythonParameters "a, *args, **kwargs" =
      (⟨"object", (pyFromTokens ["a", " **kwargs"]).1⟩,
       (pyFromTokens ["a", " **kwargs"]).2) ∧
    parseJavaScriptParameters "a, ...rest" =
      (⟨"object", (jsFromTokens ["a"]).1⟩, (jsFromTokens ["a"]).2) :=
  ⟨(c6_variadicContributesNothing "a, *args, **kwargs"
      ["a"] [" **kwargs"] " *args").1 (by decide) (by decide),
   (c6_variadicContributesNothing "a, ...rest" ["a"] [] " ...rest").2
      (by decide) (by decide)⟩

lemma isPrefixOf_single_of_pair {a b : Char} {l : List Char}
    (h : ([a, b] : List Char).isPrefixOf l = true) :
    ([a] : List Char).isPrefixOf l = true := by
  cases l with
  | nil => simp [List.isPrefixOf] at h
  | cons c cs =>
    simp [List.isPrefixOf] at h ⊢
    exact h.1

lemma firstChar_of_prefix {a : Char} {as l : List Char}
    (h : (a :: as).isPrefixOf l = true) : ∃ cs, l = a :: cs := by
  cases l with
  | nil => simp [List.isPrefixOf] at h
  | cons c cs =>
    simp [List.isPrefixOf] at h
    exact ⟨cs, by rw [h.1]⟩

lemma scanBack_blank_cons {b : String} {rest : List String}
    (h : trimSpace b = "") : scanBack (b :: rest) = scanBack rest := by
  simp [scanBack, h]

lemma scanBack_append_blanks {bs : List String} {l : List String}
    (h : ∀ b ∈ bs, trimSpace b = "") : scanBack (bs ++ l) = scanBack l := by
  induction bs with
  | nil => rfl
  | cons b bs ih =>
    rw [List.cons_append, scanBack_blank_cons (h b (List.mem_cons_self _ _))]
    exact ih (fun b hb => h b (List.mem_cons_of_mem _ hb))

lemma hasPrefix_star_of_starSlash {t : String}
    (h : hasPrefixStr t "*/" = true) : hasPrefixStr t "*" = true := by
  unfold hasPrefixStr at h ⊢
  have hd2 : ("*/").data = ['*', '/'] := rfl
  have hd1 : ("*").data = ['*'] := rfl
  rw [hd2] at h
  rw [hd1]
  exact isPrefixOf_single_of_pair h

lemma scanBack_noncomment_cons {x : String} {rest : List String}
    (h0 : trimSpace x ≠ "") (h1 : hasPrefixStr (trimSpace x) "*" = false)
    (h2 : hasPrefixStr (trimSpace x) "/**" = false) :
    scanBack (x :: rest) = [] := by
  have h3 : hasPrefixStr (trimSpace x) "*/" = false := by
    cases hc : hasPrefixStr (trimSpace x) "*/" with
    | false => rfl
    | true => simp [hasPrefix_star_of_starSlash hc] at h1
  simp [scanBack, h0, h1, h2, h3]

lemma scanBack_jsdoc_closed_cons {x : String} {rest : List String}
    (hx : hasPrefixStr (trimSpace x) "/**" = true)
    (hclose : hasSuffixStr (trimSpace (dropStr 3 (trimSpace x))) "*/" = true) :
    scanBack (x :: rest) = [] := by
  have h0 : trimSpace x ≠ "" := by
    intro h; rw [h] at hx; exact absurd hx (by decide)
  have hx' : (('/' :: ['*', '*']) : List Char).isPrefixOf (trimSpace x).data = true := by
    unfold hasPrefixStr at hx
    have hd : ("/**").data = '/' :: ['*', '*'] := rfl
    rw [hd] at hx
    exact hx
  obtain ⟨cs, hdata⟩ := firstChar_of_prefix hx'
  have hstar : hasPrefixStr (trimSpace x) "*" = false := by
    unfold hasPrefixStr
    have hd1 : ("*").data = ['*'] := rfl
    rw [hd1, hdata]
    simp [List.isPrefixOf]
  have hstarslash : hasPrefixStr (trimSpace x) "*/" = false := by
    unfold hasPrefixStr
    have hd2 : ("*/").data = ['*', '/'] := rfl
    rw [hd2, hdata]
    simp [List.isPrefixOf]
  simp [scanBack, h0, hstar, hstarslash, hx, hclose]

/-- One line of the backward scan contributing no comment content: not a
`*`-line with non-blank remainder and not a kept `/**` opener. -/
def noCommentContent (s : String) : Prop :=
  (hasPrefixStr (trimSpace s) "*" = true →
    hasPrefixStr (trimSpace s) "*/" = true ∨
    trimSpace (dropStr 1 (trimSpace s)) = "") ∧
  (hasPrefixStr (trimSpace s) "/**" = true →
    trimSpace (dropStr 3 (trimSpace s)) = "" ∨
    hasSuffixStr (trimSpace (dropStr 3 (trimSpace s))) "*/" = true)

instance (s : String) : Decidable (noCommentContent s) := by
  unfold noCommentContent; infer_instance

lemma scanBack_nil_of_noContent :
    ∀ l : List String, (∀ s ∈ l, noCommentContent s) → scanBack l = [] := by
  intro l
  induction l with
  | nil => intro _; rfl
  | cons s rest ih =>
    intro h
    have hs := h s (List.mem_cons_self _ _)
    have hrest := fun b hb => h b (List.mem_cons_of_mem _ hb)
    by_cases h0 : trimSpace s = ""
    · rw [scanBack_blank_cons h0]; exact ih hrest
    · by_cases h1 : hasPrefixStr (trimSpace s) "*/" = true
      · have h1s : hasPrefixStr (trimSpace s) "*" = true := by
          rw [hasPrefixStr] at h1 ⊢
          exact isPrefixOf_single_of_pair h1
        simp only [scanBack, if_neg h0, h1, if_true]
        exact ih hrest
      · have h1f : hasPrefixStr (trimSpace s) "*/" = false :=
          Bool.eq_false_iff.mpr h1
        by_cases h2 : hasPrefixStr (trimSpace s) "*" = true
        · have hcontent : trimSpace (dropStr 1 (trimSpace s)) = "" := by
            rcases hs.1 h2 with hc | hc
            · exact absurd hc h1
            · exact hc
          simp only [scanBack, if_neg h0, h1f, Bool.false_eq_true, if_false,
            h2, if_true, hcontent]
          simp
          exact ih hrest
        · have h2f : hasPrefixStr (trimSpace s) "*" = false :=
            Bool.eq_false_iff.mpr h2
          by_cases h3 : hasPrefixStr (trimSpace s) "/**" = true
          · rcases hs.2 h3 with hc | hc
            · simp [scanBack, h0, h1f, h2f, h3, hc]
            · simp [scanBack, h0, h1f, h2f, h3, hc]
          · have h3f : hasPrefixStr (trimSpace s) "/**" = false :=
              Bool.eq_false_iff.mpr h3
            exact scanBack_noncomment_cons h0 h2f h3f

/-- Counterexample to C7 as stated: above the header sit a stray `*`-line
and then a non-comment line; no `/**`-opened block is ever encountered,
yet the extracted description is `"stray"`, not the empty string (the
terminating non-comment line also does not discard the comment content
already collected). -/
theorem c7_counterexample :
    extractJSDocComment ["x = 1", "* stray", "function f(a)"] 2 = "stray" ∧
    ("stray" : String) ≠ "" := by
  constructor
  · rfl
  · decide

/-- C7 (amended): in the backward scan, a blank line is skipped without
breaking the scan; a non-comment non-blank line (no `*`, `*/` or `/**`
lead) immediately terminates the scan, retaining what was already
collected — so the scan from such a line yields nothing; and whenever no
scanned line contributes comment content (no `*`-line with a non-blank
remainder and no retained `/**` opener), the description is empty. -/
theorem c7_backwardScan (b x : String) (rest : List String)
    (lines : List String) (n : Nat) :
    (trimSpace b = "" → scanBack (b :: rest) = scanBack rest) ∧
    (trimSpace x ≠ "" → hasPrefixStr (trimSpace x) "*" = false →
      hasPrefixStr (trimSpace x) "/**" = false → scanBack (x :: rest) = []) ∧
    ((∀ s ∈ lines.take n, noCommentContent s) →
      extractJSDocComment lines n = "") := by
  refine ⟨scanBack_blank_cons, scanBack_noncomment_cons, fun h => ?_⟩
  unfold extractJSDocComment
  rw [scanBack_nil_of_noContent _ (fun s hs => h s (List.mem_reverse.mp hs))]
  rfl

/-- Witness for C7 (amended) at concrete scan inputs. -/
theorem c7_backwardScan_witness :
    scanBack [" ", "* beta"] = scanBack ["* beta"] ∧
    scanBack ["const y = 2", "* beta"] = [] ∧
    extractJSDocComment ["let z = 3", "function g()"] 1 = "" := by
  obtain ⟨h1, h2, h3⟩ :=
    c7_backwardScan " " "const y = 2" ["* beta"] ["let z = 3", "function g()"] 1
  exact ⟨h1 (by decide), h2 (by decide) (by decide) (by decide), h3 (by decide)⟩

/-- C10: when the first non-blank line above the header is a one-line
JSDoc (`/**` opener whose trailing trimmed content ends with `*/`), the
opener's content is discarded and the extracted description is empty. -/
theorem c10_onelineJSDocDiscarded (lines : List String) (n : Nat)
    (bs rest : List String) (x : String)
    (hsplit : (lines.take n).reverse = bs ++ x :: rest)
    (hb : ∀ b ∈ bs, trimSpace b = "")
    (hx : hasPrefixStr (trimSpace x) "/**" = true)
    (hclose : hasSuffixStr (trimSpace (dropStr 3 (trimSpace x))) "*/" = true) :
    extractJSDocComment lines n = "" := by
  unfold extractJSDocComment
  rw [hsplit, scanBack_append_blanks hb, scanBack_jsdoc_closed_cons hx hclose]
  rfl

/-- Witness for C10 at a one-line JSDoc immediately above a function
header. -/
theorem c10_onelineJSDocDiscarded_witness :
    extractJSDocComment ["/** hi */", "function f()"] 1 = "" :=
  c10_onelineJSDocDiscarded ["/** hi */", "function f()"] 1 [] [] "/** hi */"
    (by decide) (by decide) (by decide) (by decide)

/-- C9 (code bug exhibit): the request `path = "../repo2/secret"` under
root `/repo` resolves to `/repo2/secret`, which lies outside the root,
yet the containment test `strings.HasPrefix("/repo2/secret", "/repo")`
passes and the handler happily returns the file's content. -/
theorem c9_containmentBypass :
    handleGetFileContent (fun _ => some "secret-data") "/repo" "../repo2/secret" =
      .ok "secret-data" ∧
    filepathAbs "/repo" (filepathJoin "/repo" "../repo2/secret") = "/repo2/secret" ∧
    ¬ pathWithinRoot "/repo" "/repo2/secret" := by
  refine ⟨rfl, rfl, ?_⟩
  decide

lemma name_notPrivate_of_mem_pyScanClass {lines : List String} {i : Nat}
    {line : String} {s : FunctionSignature}
    (h : s ∈ pyScanClass lines i line) : hasPrefixStr s.name "_" = false := by
  unfold pyScanClass at h
  cases hm : pyClassMatch line with
  | none => rw [hm] at h; simp at h
  | some name =>
    rw [hm] at h
    by_cases hp : hasPrefixStr name "_" = true
    · simp [hp] at h
    · simp [hp] at h
      rw [h]
      exact Bool.eq_false_iff.mpr hp

lemma name_notPrivate_of_mem_pyScanLine {lines : List String} {i : Nat}
    {line : String} {s : FunctionSignature}
    (h : s ∈ pyScanLine lines i line) : hasPrefixStr s.name "_" = false := by
  unfold pyScanLine at h
  cases hm : pyFunMatch line with
  | none => rw [hm] at h; exact name_notPrivate_of_mem_pyScanClass h
  | some np =>
    obtain ⟨name, params⟩ := np
    rw [hm] at h
    by_cases hp : hasPrefixStr name "_" = true
    · simp [hp] at h
    · simp [hp] at h
      rcases h with h | h
      · rw [h]; exact Bool.eq_false_iff.mpr hp
      · exact name_notPrivate_of_mem_pyScanClass h

lemma name_notPrivate_of_mem_jsScanClass {lines : List String} {i : Nat}
    {line : String} {s : FunctionSignature}
    (h : s ∈ jsScanClass lines i line) : hasPrefixStr s.name "_" = false := by
  unfold jsScanClass at h
  cases hm : jsClassMatch line with
  | none => rw [hm] at h; simp at h
  | some name =>
    rw [hm] at h
    by_cases hp : hasPrefixStr name "_" = true
    · simp [hp] at h
    · simp [hp] at h
      rw [h]
      exact Bool.eq_false_iff.mpr hp

lemma name_notPrivate_of_mem_jsScanArrow {lines : List String} {i : Nat}
    {line : String} {s : FunctionSignature}
    (h : s ∈ jsScanArrow lines i line) : hasPrefixStr s.name "_" = false := by
  unfold jsScanArrow at h
  cases hm : jsArrowMatch line with
  | none => rw [hm] at h; exact name_notPrivate_of_mem_jsScanClass h
  | some np =>
    obtain ⟨name, params⟩ := np
    rw [hm] at h
    by_cases hp : hasPrefixStr name "_" = true
    · simp [hp] at h
    · simp [hp] at h
      rcases h with h | h
      · rw [h]; exact Bool.eq_false_iff.mpr hp
      · exact name_notPrivate_of_mem_jsScanClass h

lemma name_notPrivate_of_mem_jsScanLine {lines : List String} {i : Nat}
    {line : String} {s : FunctionSignature}
    (h : s ∈ jsScanLine lines i line) : hasPrefixStr s.name "_" = false := by
  unfold jsScanLine at h
  cases hm : jsFunMatch line with
  | none => rw [hm] at h; exact name_notPrivate_of_mem_jsScanArrow h
  | some np =>
    obtain ⟨name, params⟩ := np
    rw [hm] at h
    by_cases hp : hasPrefixStr name "_" = true
    · simp [hp] at h
    · simp [hp] at h
      rcases h with h | h
      · rw [h]; exact Bool.eq_false_iff.mpr hp
      · exact name_notPrivate_of_mem_jsScanArrow h

/-- C1: for every Python and every JavaScript/TypeScript source text, no
extracted signature record (function or class) has a name beginning with
`_`; such declarations are skipped at recognition time. -/
theorem c1_privacyFilterTotal (code : String) :
    (∀ s ∈ extractPythonSignatures code, hasPrefixStr s.name "_" = false) ∧
    (∀ s ∈ extractJavaScriptSignatures code, hasPrefixStr s.name "_" = false) := by
  constructor
  · intro s hs
    unfold extractPythonSignatures at hs
    simp only [List.mem_flatten, List.mem_map] at hs
    obtain ⟨l, ⟨p, hp, rfl⟩, hsl⟩ := hs
    exact name_notPrivate_of_mem_pyScanLine hsl
  · intro s hs
    unfold extractJavaScriptSignatures at hs
    simp only [List.mem_flatten, List.mem_map] at hs
    obtain ⟨l, ⟨p, hp, rfl⟩, hsl⟩ := hs
    exact name_notPrivate_of_mem_jsScanLine hsl

/-- Witness for C1: the record extracted from `def foo(a):` is public. -/
theorem c1_privacyFilterTotal_witness :
    hasPrefixStr
      ({ name := "foo", type_ := "function", signature := "def foo(a):",
         description := "",
         parameters := some ⟨"object", [("a", ⟨"string", "Parameter a"⟩)]⟩,
         required := ["a"] } : FunctionSignature).name "_" = false :=
  (c1_privacyFilterTotal "def foo(a):").1
    { name := "foo", type_ := "function", signature := "def foo(a):",
      description := "",
      parameters := some ⟨"object", [("a", ⟨"string", "Parameter a"⟩)]⟩,
      required := ["a"] }
    (by decide)

end MCPPrime
